import Mathlib

/-!
# Verification of the ticktick-clone temporal subsystem

Shallow embedding of the recurrence due-date calculator
(`src/database/recurrenceService.ts`), the task-completion workflow
(`completeRecurringTask` together with `taskService` from
`src/database/taskService.ts`), and the reminder scheduler
(`src/main/reminderManager.ts` with `reminderService` from
`src/database/reminderService.ts`).

Modelling conventions:
* Calendar dates are civil triples `⟨year, month, day⟩` with JS conventions
  (month `0`–`11`, day starting at `1`).  All date arithmetic is modelled at
  day granularity in an idealised single-timezone (UTC) world, matching the
  `setHours(0,0,0,0)` / `toISOString().split('T')[0]` round trips of the
  source.  Proleptic dates before year 0 are outside the model: branches that
  would produce them return `none`.
* Instants (reminder times, `created_at`, …) are integers (milliseconds since
  the epoch); ISO-8601 strings of a fixed format compare exactly like their
  instants.
* JS `undefined` on an object field is modelled by `Option.none`.  In
  particular `taskService`'s `rowToTask` builds its result object without the
  five recurrence fields, so the `Task` values it produces carry `none` there,
  exactly as the source object literal does.
* SQLite stores are association lists of rows; fresh `uuidv4` identifiers and
  the wall clock are passed in explicitly.
* `better-sqlite3` statements are synchronous; each service call is a pure
  state transition.
-/

namespace TickTick

/-- A civil calendar date: JS-style `year`/`month 0-11`/`day 1-31`. -/
structure CivilDate where
  y : Nat
  m : Nat
  d : Nat
deriving DecidableEq

/-- Gregorian leap-year rule (JS `Date` semantics). -/
def isLeap (y : Nat) : Bool :=
  (y % 4 == 0 && y % 100 != 0) || y % 400 == 0

/-- Length of the month with absolute month index `t` (year `t / 12`,
month `t % 12`), per the Gregorian table used by the JS `Date` host. -/
def monthLen (t : Nat) : Nat :=
  let m := t % 12
  if m = 1 then (if isLeap (t / 12) then 29 else 28)
  else if m = 3 ∨ m = 5 ∨ m = 8 ∨ m = 10 then 30
  else 31

/-- Day number of the first day of the month with absolute index `t`,
counting days from 0000-01-01. -/
def monthsStart : Nat → Nat
  | 0 => 0
  | t + 1 => monthsStart t + monthLen t

/-- Day number (days since 0000-01-01) of a civil date. -/
def toDays (date : CivilDate) : Nat :=
  monthsStart (12 * date.y + date.m) + (date.d - 1)

/-- JS `getDay()`: weekday of a day number (0 = Sunday … 6 = Saturday).
0000-01-01 was a Saturday. -/
def weekdayOf (n : Nat) : Nat :=
  (n + 6) % 7

/-- Fuel-driven conversion step: starting from month index `t`, consume whole
months out of a day offset `n`.  The fuel makes the recursion structural so
that the kernel can evaluate it. -/
def dToC : Nat → Nat → Nat → Nat × Nat
  | 0, t, n => (t, n)
  | fuel + 1, t, n =>
    if n < monthLen t then (t, n) else dToC fuel (t + 1) (n - monthLen t)

/-- Convert a day number back to a civil date (inverse of `toDays` on valid
dates; each month has at least 28 days, so fuel `n + 1` always suffices). -/
def daysToCivil (n : Nat) : CivilDate :=
  let p := dToC (n + 1) 0 n
  ⟨p.1 / 12, p.1 % 12, p.2 + 1⟩

/-- Render a (possibly negative) day number as a civil date; day numbers
before 0000-01-01 are outside the modelled domain. -/
def ofDayNumber (n : Int) : Option CivilDate :=
  if 0 ≤ n then some (daysToCivil n.toNat) else none

/-- A civil date is valid when the month and day are in range. -/
def CivilDate.Valid (date : CivilDate) : Prop :=
  date.m < 12 ∧ 1 ≤ date.d ∧ date.d ≤ monthLen (12 * date.y + date.m)

instance (date : CivilDate) : Decidable date.Valid := by
  unfold CivilDate.Valid; infer_instance

theorem monthLen_pos (t : Nat) : 0 < monthLen t := by
  unfold monthLen
  dsimp only
  split
  · split <;> omega
  · split <;> omega

theorem monthsStart_le {t u : Nat} (h : t ≤ u) : monthsStart t ≤ monthsStart u := by
  induction u with
  | zero =>
    have : t = 0 := by omega
    subst this; exact Nat.le_refl _
  | succ v ih =>
    rcases Nat.lt_or_ge t (v + 1) with h' | h'
    · have h1 : monthsStart t ≤ monthsStart v := ih (by omega)
      have h2 := monthLen_pos v
      have h3 : monthsStart (v + 1) = monthsStart v + monthLen v := rfl
      omega
    · have : t = v + 1 := by omega
      subst this; exact Nat.le_refl _

theorem monthsStart_lt {t u : Nat} (h : t < u) : monthsStart t < monthsStart u := by
  induction u with
  | zero => omega
  | succ v ih =>
    have hle : monthsStart t ≤ monthsStart v := monthsStart_le (by omega)
    have hpos := monthLen_pos v
    have : monthsStart (v + 1) = monthsStart v + monthLen v := rfl
    omega

theorem dToC_spec : ∀ (fuel t n : Nat), n < fuel →
    monthsStart t + n = monthsStart (dToC fuel t n).1 + (dToC fuel t n).2 ∧
    (dToC fuel t n).2 < monthLen (dToC fuel t n).1 := by
  intro fuel
  induction fuel with
  | zero => intro t n h; omega
  | succ f ih =>
    intro t n h
    by_cases hlt : n < monthLen t
    · simp [dToC, hlt]
    · have hpos := monthLen_pos t
      have hrec := ih (t + 1) (n - monthLen t) (by omega)
      have hstep : monthsStart (t + 1) = monthsStart t + monthLen t := rfl
      simp only [dToC, if_neg hlt]
      constructor
      · omega
      · exact hrec.2

theorem toDays_daysToCivil (n : Nat) : toDays (daysToCivil n) = n := by
  have h := dToC_spec (n + 1) 0 n (by omega)
  unfold daysToCivil toDays
  have hid : 12 * ((dToC (n + 1) 0 n).1 / 12) + (dToC (n + 1) 0 n).1 % 12
      = (dToC (n + 1) 0 n).1 := by omega
  simp only [hid]
  have h0 : monthsStart 0 = 0 := rfl
  omega

/-! ## Domain data model (`src/shared/types.ts`, `src/database/schema.ts`) -/

/-- `Priority` from `types.ts`. -/
inductive Priority where
  | none | low | medium | high
deriving DecidableEq

/-- `RecurrencePattern` from `types.ts`. -/
inductive RecurrencePattern where
  | none | daily | weekly | monthly | yearly | custom
deriving DecidableEq

/-- `RegenerateMode` from `types.ts`. -/
inductive RegenerateMode where
  | on_completion | fixed_schedule
deriving DecidableEq

/-- A row of the `tasks` table (`schema.ts`).  The recurrence columns carry
the table defaults when an `INSERT` does not name them. -/
structure TaskRow where
  id : Nat
  list_id : Option Nat
  title : String
  description : String
  notes : String
  due_date : Option CivilDate
  due_time : Option String
  priority : Priority
  completed : Bool
  completed_at : Option Int
  position : Int
  created_at : Int
  updated_at : Int
  recurrence_pattern : RecurrencePattern
  recurrence_interval : Int
  recurrence_weekdays : List Nat
  recurrence_end_date : Option CivilDate
  regenerate_mode : RegenerateMode
deriving DecidableEq

/-- The in-memory `Task` object of the renderer/main processes.  On the five
recurrence fields, `none` stands for the JS value `undefined` (field absent
on the object), which is what `taskService.rowToTask` actually produces. -/
structure Task where
  id : Nat
  listId : Option Nat
  title : String
  description : String
  notes : String
  dueDate : Option CivilDate
  dueTime : Option String
  priority : Priority
  completed : Bool
  completedAt : Option Int
  position : Int
  createdAt : Int
  updatedAt : Int
  recurrencePattern : Option RecurrencePattern
  recurrenceInterval : Option Int
  recurrenceWeekdays : Option (List Nat)
  recurrenceEndDate : Option CivilDate
  regenerateMode : Option RegenerateMode
deriving DecidableEq

/-- A row of the `reminders` table. -/
structure ReminderRow where
  id : Nat
  task_id : Nat
  reminder_time : Int
  triggered : Bool
  snoozed_until : Option Int
  created_at : Int
  updated_at : Int
deriving DecidableEq

/-- The in-memory `Reminder` object (`reminderService.rowToReminder` maps
every column, so it mirrors the row exactly). -/
structure Reminder where
  id : Nat
  taskId : Nat
  reminderTime : Int
  triggered : Bool
  snoozedUntil : Option Int
  createdAt : Int
  updatedAt : Int
deriving DecidableEq

/-- The persistent record store: `tasks`, `reminders` and the `task_tags`
junction table (pairs `(task_id, tag_id)`). -/
structure Store where
  tasks : List TaskRow
  reminders : List ReminderRow
  taskTags : List (Nat × Nat)
deriving DecidableEq

/-- `CreateTaskDTO` (`types.ts`): optional fields are `undefined` when
absent; `??`-defaulting in `taskService.create` treats `undefined` and
`null` alike, so a single `Option` layer is faithful. -/
structure CreateTaskDTO where
  listId : Option Nat := none
  title : String
  description : Option String := none
  notes : Option String := none
  dueDate : Option CivilDate := none
  dueTime : Option String := none
  priority : Option Priority := none
  recurrencePattern : Option RecurrencePattern := none
  recurrenceInterval : Option Int := none
  recurrenceWeekdays : Option (List Nat) := none
  recurrenceEndDate : Option CivilDate := none
  regenerateMode : Option RegenerateMode := none

/-- `UpdateTaskDTO`: the outer `Option` is "field present in the DTO"
(`!== undefined`), the inner one is SQL `NULL` where the TS type admits it. -/
structure UpdateTaskDTO where
  listId : Option (Option Nat) := none
  title : Option String := none
  description : Option String := none
  notes : Option String := none
  dueDate : Option (Option CivilDate) := none
  dueTime : Option (Option String) := none
  priority : Option Priority := none
  completed : Option Bool := none
  position : Option Int := none

/-- `UpdateReminderDTO`. -/
structure UpdateReminderDTO where
  reminderTime : Option Int := none
  triggered : Option Bool := none
  snoozedUntil : Option (Option Int) := none

/-! ## `taskService` (`src/database/taskService.ts`) -/

/-- `rowToTask` (`taskService.ts` lines 14–31): the returned object literal
maps the thirteen base columns and stops there — the five recurrence fields
are **not** set, so they are `undefined` (`none`) on every task object the
service hands out, whatever the row holds. -/
def rowToTask (row : TaskRow) : Task where
  id := row.id
  listId := row.list_id
  title := row.title
  description := row.description
  notes := row.notes
  dueDate := row.due_date
  dueTime := row.due_time
  priority := row.priority
  completed := row.completed
  completedAt := row.completed_at
  position := row.position
  createdAt := row.created_at
  updatedAt := row.updated_at
  recurrencePattern := none
  recurrenceInterval := none
  recurrenceWeekdays := none
  recurrenceEndDate := none
  regenerateMode := none

/-- `taskService.getById`. -/
def taskGetById (st : Store) (id : Nat) : Option Task :=
  (st.tasks.find? (fun row => row.id == id)).map rowToTask

/-- `taskService.create` (`taskService.ts` lines 47–79): computes
`COALESCE(MAX(position), -1) + 1` over the same list, then INSERTs the
eleven named columns only — the recurrence fields of the DTO are ignored and
the table defaults (`'none'`, `1`, `'[]'`, `NULL`, `'on_completion'`) apply.
Returns `getById(id)!`, which for the fresh id is the new row. -/
def taskCreate (st : Store) (freshId : Nat) (now : Int) (dto : CreateTaskDTO) :
    Store × Task :=
  let maxPos : Int :=
    st.tasks.foldl (fun acc row => if row.list_id == dto.listId then max acc row.position else acc) (-1)
  let row : TaskRow :=
    { id := freshId
      list_id := dto.listId
      title := dto.title
      description := dto.description.getD ""
      notes := dto.notes.getD ""
      due_date := dto.dueDate
      due_time := dto.dueTime
      priority := dto.priority.getD Priority.none
      completed := false
      completed_at := none
      position := maxPos + 1
      created_at := now
      updated_at := now
      recurrence_pattern := RecurrencePattern.none
      recurrence_interval := 1
      recurrence_weekdays := []
      recurrence_end_date := none
      regenerate_mode := RegenerateMode.on_completion }
  ({ st with tasks := st.tasks ++ [row] }, rowToTask row)

/-- The per-row effect of `taskService.update`'s dynamic `UPDATE` statement. -/
def applyTaskUpdate (now : Int) (dto : UpdateTaskDTO) (row : TaskRow) : TaskRow :=
  { row with
    list_id := dto.listId.getD row.list_id
    title := dto.title.getD row.title
    description := dto.description.getD row.description
    notes := dto.notes.getD row.notes
    due_date := dto.dueDate.getD row.due_date
    due_time := dto.dueTime.getD row.due_time
    priority := dto.priority.getD row.priority
    completed := dto.completed.getD row.completed
    completed_at :=
      match dto.completed with
      | some true => some now
      | some false => none
      | none => row.completed_at
    position := dto.position.getD row.position
    updated_at := now }

/-- `taskService.update` (`taskService.ts` lines 157–222): if no field is
present the store is untouched; otherwise the matching rows are rewritten
(setting `completed` also writes `completed_at`), and `getById` is re-read
from the updated store. -/
def taskUpdate (st : Store) (now : Int) (id : Nat) (dto : UpdateTaskDTO) :
    Store × Option Task :=
  if dto.listId = none ∧ dto.title = none ∧ dto.description = none ∧
      dto.notes = none ∧ dto.dueDate = none ∧ dto.dueTime = none ∧
      dto.priority = none ∧ dto.completed = none ∧ dto.position = none then
    (st, taskGetById st id)
  else
    let st' := { st with
      tasks := st.tasks.map (fun row => if row.id == id then applyTaskUpdate now dto row else row) }
    (st', taskGetById st' id)


/-! ## `recurrenceService` (`src/database/recurrenceService.ts`) -/

/-- `findNextWeekday` (`recurrenceService.ts` lines 73–96): sort the weekday
list ascending, look for a weekday strictly later in the current week; with a
one-week cadence jump to it, otherwise jump to the first listed weekday of
the week `weeksInterval` weeks ahead via
`(7 - currentWeekday + firstWeekday) % 7 || 7` plus `(weeksInterval - 1) * 7`
days.  Returns the resulting day number.  (`sortedWeekdays[0]` on an empty
list would be `undefined` in JS — the calculator only calls this with a
non-empty list; `headD 0` is the totalising stand-in.) -/
def findNextWeekday (baseDate : CivilDate) (weekdays : List Nat) (weeksInterval : Int) : Int :=
  let sortedWeekdays := List.insertionSort (· ≤ ·) weekdays
  let currentWeekday := weekdayOf (toDays baseDate)
  let nextInWeek := sortedWeekdays.find? (fun wd => decide (currentWeekday < wd))
  if nextInWeek ≠ none ∧ weeksInterval = 1 then
    (toDays baseDate : Int) + ((nextInWeek.getD 0 : Int) - (currentWeekday : Int))
  else
    let firstWeekday := sortedWeekdays.headD 0
    let daysToFirstWeekday :=
      if (7 - currentWeekday + firstWeekday) % 7 = 0 then 7
      else (7 - currentWeekday + firstWeekday) % 7
    (toDays baseDate : Int) + (daysToFirstWeekday : Int) + (weeksInterval - 1) * 7

/-- `calculateNextDueDate` (`recurrenceService.ts` lines 9–68).  Every
parameter that can arrive as JS `undefined` (when the caller reads it off a
`rowToTask` object) is `Option`-wrapped; `undefined` falls to the `switch`
default, which returns null.  `today` is the injected wall-clock date used by
the `on_completion` branch (`new Date()` truncated to the day).  Branches
whose JS evaluation would throw on an `undefined` operand (an `interval` or
`weekdays` that is `undefined` under a defined non-`none` pattern — a
combination no code path produces) are modelled as `none`. -/
def calculateNextDueDate (currentDueDate : Option CivilDate)
    (pattern : Option RecurrencePattern) (interval : Option Int)
    (weekdays : Option (List Nat)) (regenerateMode : Option RegenerateMode)
    (today : CivilDate) : Option CivilDate :=
  match currentDueDate, pattern with
  | none, _ => none
  | some _, some RecurrencePattern.none => none
  | some due, pat =>
    let baseDate := if regenerateMode = some RegenerateMode.fixed_schedule then due else today
    match pat, interval with
    | some RecurrencePattern.daily, some i =>
      ofDayNumber ((toDays baseDate : Int) + i)
    | some RecurrencePattern.weekly, some i =>
      match weekdays with
      | some ws =>
        if 0 < ws.length then ofDayNumber (findNextWeekday baseDate ws i)
        else ofDayNumber ((toDays baseDate : Int) + 7 * i)
      | none => none
    | some RecurrencePattern.monthly, some i =>
      let monthIndex : Int := 12 * (baseDate.y : Int) + (baseDate.m : Int) + i
      if 0 ≤ monthIndex then
        ofDayNumber ((monthsStart monthIndex.toNat : Int) + ((baseDate.d : Int) - 1))
      else none
    | some RecurrencePattern.yearly, some i =>
      let monthIndex : Int := 12 * ((baseDate.y : Int) + i) + (baseDate.m : Int)
      if 0 ≤ monthIndex then
        ofDayNumber ((monthsStart monthIndex.toNat : Int) + ((baseDate.d : Int) - 1))
      else none
    | some RecurrencePattern.custom, some i =>
      ofDayNumber ((toDays baseDate : Int) + i)
    | _, _ => none

/-- `createNextRecurringTask` (`recurrenceService.ts` lines 101–149): bail
out for an explicit `'none'` pattern; compute the next due date; if an end
date and a next date are both present (JS truthiness) and the next date is
past the end date, stop the series with null; otherwise create the clone through
`taskService.create` and copy the `task_tags` rows of the completed instance
onto the new id. -/
def createNextRecurringTask (st : Store) (freshId : Nat) (now : Int)
    (today : CivilDate) (completedTask : Task) : Store × Option Task :=
  if completedTask.recurrencePattern = some RecurrencePattern.none then
    (st, none)
  else
    let nextDueDate := calculateNextDueDate completedTask.dueDate
      completedTask.recurrencePattern completedTask.recurrenceInterval
      completedTask.recurrenceWeekdays completedTask.regenerateMode today
    let pastEnd :=
      match completedTask.recurrenceEndDate, nextDueDate with
      | some endDate, some nextDate => decide (toDays endDate < toDays nextDate)
      | _, _ => false
    if pastEnd then
      (st, none)
    else
      let created := taskCreate st freshId now
        { listId := completedTask.listId
          title := completedTask.title
          description := some completedTask.description
          notes := some completedTask.notes
          dueDate := nextDueDate
          dueTime := completedTask.dueTime
          priority := some completedTask.priority
          recurrencePattern := completedTask.recurrencePattern
          recurrenceInterval := completedTask.recurrenceInterval
          recurrenceWeekdays := completedTask.recurrenceWeekdays
          recurrenceEndDate := completedTask.recurrenceEndDate
          regenerateMode := completedTask.regenerateMode }
      let st1 := created.1
      let newTask := created.2
      let copied := (st1.taskTags.filter (fun p => p.1 == completedTask.id)).map
        (fun p => (newTask.id, p.2))
      ({ st1 with taskTags := st1.taskTags ++ copied }, some newTask)

/-- `completeRecurringTask` (`recurrenceService.ts` lines 155–173): absent
task → null; otherwise mark completed via `taskService.update`, and when the
looked-up task's `recurrencePattern !== 'none'` (which `undefined` satisfies)
spawn the next instance from the just-updated task object. -/
def completeRecurringTask (st : Store) (freshId : Nat) (now : Int)
    (today : CivilDate) (taskId : Nat) : Store × Option (Task × Option Task) :=
  match taskGetById st taskId with
  | none => (st, none)
  | some task =>
    let upd := taskUpdate st now taskId { completed := some true }
    match upd.2 with
    | none => (upd.1, none)
    | some completedTask =>
      if task.recurrencePattern ≠ some RecurrencePattern.none then
        let nxt := createNextRecurringTask upd.1 freshId now today completedTask
        (nxt.1, some (completedTask, nxt.2))
      else
        (upd.1, some (completedTask, none))


/-! ## `reminderService` (`src/database/reminderService.ts`) -/

/-- `rowToReminder`: maps every column. -/
def rowToReminder (row : ReminderRow) : Reminder where
  id := row.id
  taskId := row.task_id
  reminderTime := row.reminder_time
  triggered := row.triggered
  snoozedUntil := row.snoozed_until
  createdAt := row.created_at
  updatedAt := row.updated_at

/-- `reminderService.getById`. -/
def reminderGetById (st : Store) (id : Nat) : Option Reminder :=
  (st.reminders.find? (fun row => row.id == id)).map rowToReminder

/-- The per-row effect of `reminderService.update`'s `UPDATE` statement. -/
def applyReminderUpdate (now : Int) (dto : UpdateReminderDTO) (row : ReminderRow) : ReminderRow :=
  { row with
    reminder_time := dto.reminderTime.getD row.reminder_time
    triggered := dto.triggered.getD row.triggered
    snoozed_until := dto.snoozedUntil.getD row.snoozed_until
    updated_at := now }

/-- `reminderService.update` (`reminderService.ts` lines 76–110): only the
fields present in the DTO are written; an empty DTO reads back unchanged;
the result is `getById` on the updated store. -/
def reminderUpdate (st : Store) (now : Int) (id : Nat) (dto : UpdateReminderDTO) :
    Store × Option Reminder :=
  if dto.reminderTime = none ∧ dto.triggered = none ∧ dto.snoozedUntil = none then
    (st, reminderGetById st id)
  else
    let st' := { st with
      reminders := st.reminders.map
        (fun row => if row.id == id then applyReminderUpdate now dto row else row) }
    (st', reminderGetById st' id)

/-- `reminderService.snooze` (`reminderService.ts` lines 123–127): persist
`snoozedUntil = Date.now() + duration·60·1000` and `triggered = false`.
Note that `reminderTime` is **not** among the updated fields. -/
def reminderSnooze (st : Store) (now : Int) (id : Nat) (duration : Int) :
    Store × Option Reminder :=
  reminderUpdate st now id
    { snoozedUntil := some (some (now + duration * 60 * 1000)), triggered := some false }

/-- `reminderService.markTriggered`. -/
def reminderMarkTriggered (st : Store) (now : Int) (id : Nat) : Store × Option Reminder :=
  reminderUpdate st now id { triggered := some true }

/-- `reminderService.delete`: `DELETE FROM reminders WHERE id = ?`; the
result is `changes > 0`, i.e. whether some row matched. -/
def reminderDelete (st : Store) (id : Nat) : Store × Bool :=
  ({ st with reminders := st.reminders.filter (fun row => !(row.id == id)) },
    st.reminders.any (fun row => row.id == id))

/-- `reminderService.getDue`: `triggered = 0 AND reminder_time <= now AND
(snoozed_until IS NULL OR snoozed_until <= now)` (all times in the same
ISO format, so string comparison is instant comparison). -/
def reminderGetDue (st : Store) (now : Int) : List Reminder :=
  (st.reminders.filter (fun row =>
    !row.triggered && decide (row.reminder_time ≤ now) &&
      (match row.snoozed_until with
       | none => true
       | some s => decide (s ≤ now)))).map rowToReminder

/-! ## `reminderManager` (`src/main/reminderManager.ts`)

The module-level `scheduledJobs` map and the notifications emitted through
Electron are made explicit in a scheduler state.  A cancelled
`node-schedule` job never fires, so cancelling is modelled by removing the
map entry (the source sometimes leaves a cancelled `Job` object in the map;
that residue has no observable behaviour).  A timer fire invokes
`triggerReminder` with the `Reminder` object captured by the scheduling
closure — not with freshly read state. -/

/-- An OS notification as emitted by `triggerReminder` (title is the task's
title; elevated urgency for high-priority tasks). -/
structure Notif where
  reminderId : Nat
  taskId : Nat
  title : String
  critical : Bool
deriving DecidableEq

/-- `scheduledJobs` plus the notification trace, alongside the store. -/
structure SchedState where
  store : Store
  jobs : List (Nat × Int)
  notifs : List Notif
deriving DecidableEq

/-- `triggerReminder` (`reminderManager.ts` lines 87–138): re-fetch **the
task** (never the reminder) from the store; a missing or completed task is
marked triggered silently; otherwise the notification is shown (when the
host supports notifications), the reminder is marked triggered, and the job
entry is dropped. -/
def triggerReminder (supported : Bool) (now : Int) (st : SchedState)
    (reminder : Reminder) : SchedState :=
  match taskGetById st.store reminder.taskId with
  | none =>
    { st with store := (reminderMarkTriggered st.store now reminder.id).1 }
  | some task =>
    if task.completed then
      { st with store := (reminderMarkTriggered st.store now reminder.id).1 }
    else
      let notifs' :=
        if supported then
          st.notifs ++ [⟨reminder.id, reminder.taskId, task.title,
            task.priority = Priority.high⟩]
        else st.notifs
      { store := (reminderMarkTriggered st.store now reminder.id).1
        jobs := st.jobs.filter (fun j => !(j.1 == reminder.id))
        notifs := notifs' }

/-- `scheduleReminder` (`reminderManager.ts` lines 47–71): cancel any
existing job for the id; a reminder time not in the future is delivered
synchronously via `triggerReminder`; otherwise a one-shot timer is
registered at `reminderTime`. -/
def scheduleReminder (supported : Bool) (now : Int) (st : SchedState)
    (reminder : Reminder) : SchedState :=
  let st1 := { st with jobs := st.jobs.filter (fun j => !(j.1 == reminder.id)) }
  if reminder.reminderTime ≤ now then
    triggerReminder supported now st1 reminder
  else
    { st1 with jobs := st1.jobs ++ [(reminder.id, reminder.reminderTime)] }

/-- `cancelReminder` (`reminderManager.ts` lines 76–82). -/
def cancelReminder (st : SchedState) (id : Nat) : SchedState :=
  { st with jobs := st.jobs.filter (fun j => !(j.1 == id)) }

/-- `snoozeReminder` (`reminderManager.ts` lines 163–169): delegate to
`reminderService.snooze`; on success re-schedule the returned reminder
(whose `reminderTime` the service left unchanged). -/
def snoozeReminder (supported : Bool) (now : Int) (st : SchedState)
    (id : Nat) (durationMinutes : Int) : SchedState × Option Reminder :=
  let res := reminderSnooze st.store now id durationMinutes
  let st1 := { st with store := res.1 }
  match res.2 with
  | some reminder => (scheduleReminder supported now st1 reminder, some reminder)
  | none => (st1, none)

/-- `deleteReminder` (`reminderManager.ts` lines 174–177). -/
def deleteReminder (st : SchedState) (id : Nat) : SchedState × Bool :=
  let st1 := cancelReminder st id
  let res := reminderDelete st1.store id
  ({ st1 with store := res.1 }, res.2)

/-- `checkDueReminders` (`reminderManager.ts` lines 143–149): the 60-second
fallback sweep; it queries `getDue` and pushes each result through
`triggerReminder`. -/
def checkDueReminders (supported : Bool) (now : Int) (st : SchedState) : SchedState :=
  (reminderGetDue st.store now).foldl (triggerReminder supported now) st


/-! ## List bookkeeping lemmas for the association-list stores -/

theorem find?_map_ite {α : Type} (p : α → Bool) (g : α → α)
    (hg : ∀ a, p a = true → p (g a) = true) :
    ∀ l : List α,
      (l.map (fun a => if p a then g a else a)).find? p = (l.find? p).map g := by
  intro l
  induction l with
  | nil => rfl
  | cons a l ih =>
    by_cases h : p a
    · simp only [List.map_cons, if_pos h]
      rw [List.find?_cons_of_pos _ (hg a h), List.find?_cons_of_pos _ h, Option.map_some']
    · simp only [List.map_cons, if_neg h]
      rw [List.find?_cons_of_neg _ h, List.find?_cons_of_neg _ h, ih]

theorem map_ite_of_find?_none {α : Type} (p : α → Bool) (g : α → α) :
    ∀ l : List α, l.find? p = none → l.map (fun a => if p a then g a else a) = l := by
  intro l
  induction l with
  | nil => intro _; rfl
  | cons a l ih =>
    intro h
    have h1 : ¬ p a = true := by
      intro hp
      rw [List.find?_cons_of_pos _ hp] at h
      exact Option.noConfusion h
    rw [List.find?_cons_of_neg _ h1] at h
    simp only [List.map_cons, if_neg h1, ih h]

theorem filter_not_of_find?_none {α : Type} (p : α → Bool) :
    ∀ l : List α, l.find? p = none → l.filter (fun a => !(p a)) = l := by
  intro l
  induction l with
  | nil => intro _; rfl
  | cons a l ih =>
    intro h
    have h1 : ¬ p a = true := by
      intro hp
      rw [List.find?_cons_of_pos _ hp] at h
      exact Option.noConfusion h
    rw [List.find?_cons_of_neg _ h1] at h
    simp only [List.filter_cons]
    have : (!p a) = true := by
      cases hpa : p a
      · rfl
      · exact absurd hpa h1
    rw [if_pos this, ih h]

theorem any_false_of_find?_none {α : Type} (p : α → Bool) :
    ∀ l : List α, l.find? p = none → l.any p = false := by
  intro l
  induction l with
  | nil => intro _; rfl
  | cons a l ih =>
    intro h
    have h1 : ¬ p a = true := by
      intro hp
      rw [List.find?_cons_of_pos _ hp] at h
      exact Option.noConfusion h
    rw [List.find?_cons_of_neg _ h1] at h
    simp only [List.any_cons, ih h]
    cases hpa : p a
    · rfl
    · exact absurd hpa h1

theorem find?_append_of_some {α : Type} (p : α → Bool) {l₁ : List α} (l₂ : List α)
    {a : α} (h : l₁.find? p = some a) : (l₁ ++ l₂).find? p = some a := by
  induction l₁ with
  | nil => exact Option.noConfusion h
  | cons b l ih =>
    by_cases hb : p b
    · rw [List.find?_cons_of_pos _ hb] at h
      rw [List.cons_append, List.find?_cons_of_pos _ hb]
      exact h
    · rw [List.find?_cons_of_neg _ hb] at h
      rw [List.cons_append, List.find?_cons_of_neg _ hb]
      exact ih h

theorem find?_sorted_least {c : Nat} :
    ∀ {l : List Nat}, List.Sorted (· ≤ ·) l →
      ∀ {a : Nat}, l.find? (fun x => decide (c < x)) = some a →
        a ∈ l ∧ c < a ∧ ∀ u ∈ l, c < u → a ≤ u := by
  intro l
  induction l with
  | nil => intro _ a h; exact Option.noConfusion h
  | cons b l ih =>
    intro hsort a h
    rw [List.sorted_cons] at hsort
    by_cases hb : c < b
    · rw [List.find?_cons_of_pos _ (by simpa using hb)] at h
      cases h
      refine ⟨List.mem_cons_self _ _, hb, ?_⟩
      intro u hu _
      rcases List.mem_cons.mp hu with rfl | hu'
      · exact Nat.le_refl _
      · exact hsort.1 u hu'
    · rw [List.find?_cons_of_neg _ (by simpa using hb)] at h
      obtain ⟨hmem, hca, hleast⟩ := ih hsort.2 h
      refine ⟨List.mem_cons_of_mem _ hmem, hca, ?_⟩
      intro u hu hcu
      rcases List.mem_cons.mp hu with rfl | hu'
      · exact absurd hcu hb
      · exact hleast u hu' hcu


/-! ## Calculator facts -/

/-- A JS-`undefined` pattern always falls to the `switch` default: null. -/
theorem calc_undef_pattern (due : Option CivilDate) (i : Option Int)
    (ws : Option (List Nat)) (mode : Option RegenerateMode) (today : CivilDate) :
    calculateNextDueDate due none i ws mode today = none := by
  cases due <;> cases i <;> rfl

/-- `findNextWeekday` moves strictly forward whenever the week cadence is at
least one (for any weekday list, empty or not). -/
theorem findNextWeekday_gt (base : CivilDate) (ws : List Nat) (w : Int) (hw : 1 ≤ w) :
    (toDays base : Int) < findNextWeekday base ws w := by
  unfold findNextWeekday
  set sorted := List.insertionSort (· ≤ ·) ws with hsorted
  set cw := weekdayOf (toDays base) with hcw
  by_cases hcond : sorted.find? (fun wd => decide (cw < wd)) ≠ none ∧ w = 1
  · rw [if_pos hcond]
    obtain ⟨hne, _⟩ := hcond
    obtain ⟨u, hu⟩ := Option.ne_none_iff_exists'.mp hne
    have hcu : cw < u := by simpa using List.find?_some hu
    rw [hu]
    simp only [Option.getD_some]
    omega
  · rw [if_neg hcond]
    dsimp only
    set x := (if (7 - cw + sorted.headD 0) % 7 = 0 then 7
      else (7 - cw + sorted.headD 0) % 7) with hxdef
    have hx : 1 ≤ x := by
      rw [hxdef]
      split
      · omega
      · omega
    omega


/-- Branch equation: daily. -/
theorem calc_daily (due today : CivilDate) (i : Int) (ws : Option (List Nat))
    (mode : Option RegenerateMode) :
    calculateNextDueDate (some due) (some RecurrencePattern.daily) (some i) ws mode today
      = ofDayNumber ((toDays (if mode = some RegenerateMode.fixed_schedule then due else today) : Int) + i) :=
  rfl

/-- Branch equation: custom (interval counts days). -/
theorem calc_custom (due today : CivilDate) (i : Int) (ws : Option (List Nat))
    (mode : Option RegenerateMode) :
    calculateNextDueDate (some due) (some RecurrencePattern.custom) (some i) ws mode today
      = ofDayNumber ((toDays (if mode = some RegenerateMode.fixed_schedule then due else today) : Int) + i) :=
  rfl

/-- Branch equation: weekly. -/
theorem calc_weekly (due today : CivilDate) (i : Int) (ws : List Nat)
    (mode : Option RegenerateMode) :
    calculateNextDueDate (some due) (some RecurrencePattern.weekly) (some i) (some ws) mode today
      = (if 0 < ws.length then
          ofDayNumber (findNextWeekday (if mode = some RegenerateMode.fixed_schedule then due else today) ws i)
        else
          ofDayNumber ((toDays (if mode = some RegenerateMode.fixed_schedule then due else today) : Int) + 7 * i)) :=
  rfl

/-- Branch equation: monthly. -/
theorem calc_monthly (due today : CivilDate) (i : Int) (ws : Option (List Nat))
    (mode : Option RegenerateMode) :
    calculateNextDueDate (some due) (some RecurrencePattern.monthly) (some i) ws mode today
      = (let base := if mode = some RegenerateMode.fixed_schedule then due else today
         if 0 ≤ 12 * (base.y : Int) + (base.m : Int) + i then
           ofDayNumber ((monthsStart (12 * (base.y : Int) + (base.m : Int) + i).toNat : Int)
             + ((base.d : Int) - 1))
         else none) :=
  rfl

/-- Branch equation: yearly. -/
theorem calc_yearly (due today : CivilDate) (i : Int) (ws : Option (List Nat))
    (mode : Option RegenerateMode) :
    calculateNextDueDate (some due) (some RecurrencePattern.yearly) (some i) ws mode today
      = (let base := if mode = some RegenerateMode.fixed_schedule then due else today
         if 0 ≤ 12 * ((base.y : Int) + i) + (base.m : Int) then
           ofDayNumber ((monthsStart (12 * ((base.y : Int) + i) + (base.m : Int)).toNat : Int)
             + ((base.d : Int) - 1))
         else none) :=
  rfl

/-- Plain/`Option`-wrapped regenerate-mode tests agree. -/
theorem mode_if_eq (mode : RegenerateMode) (a b : CivilDate) :
    (if (some mode : Option RegenerateMode) = some RegenerateMode.fixed_schedule then a else b)
      = (if mode = RegenerateMode.fixed_schedule then a else b) := by
  by_cases h : mode = RegenerateMode.fixed_schedule
  · rw [if_pos h, if_pos (by rw [h])]
  · rw [if_neg h, if_neg (by simpa using h)]


/-! ## Claims about the calculator -/

/-- Claim C5, counterexample: the claim asserts that `calculateNextDueDate`
returns null whenever `interval < 1`; but daily recurrence with interval `0`
anchored at 0000-01-05 returns the anchor itself, not null — the source has
no interval guard at all. -/
theorem C5_counterexample :
    calculateNextDueDate (some ⟨0, 0, 5⟩) (some RecurrencePattern.daily) (some 0)
        (some []) (some RegenerateMode.fixed_schedule) ⟨0, 0, 5⟩
      = some ⟨0, 0, 5⟩ ∧
    calculateNextDueDate (some ⟨0, 0, 5⟩) (some RecurrencePattern.daily) (some 0)
        (some []) (some RegenerateMode.fixed_schedule) ⟨0, 0, 5⟩
      ≠ none := by
  constructor
  · decide
  · decide

/-- Claim C5, amended: a recurring pattern with a missing anchor date does
yield null (for every pattern, interval, weekday set, mode and clock), but an
interval `< 1` is not rejected: daily recurrence with interval `0` returns
the base date itself instead of null (and no exception — the function is
total). -/
theorem C5_amended :
    (∀ (pattern : Option RecurrencePattern) (interval : Option Int)
        (weekdays : Option (List Nat)) (mode : Option RegenerateMode) (today : CivilDate),
      calculateNextDueDate none pattern interval weekdays mode today = none) ∧
    (∀ (due today : CivilDate) (ws : List Nat) (mode : RegenerateMode),
      calculateNextDueDate (some due) (some RecurrencePattern.daily) (some 0)
          (some ws) (some mode) today
        = some (daysToCivil (toDays (if mode = RegenerateMode.fixed_schedule then due else today)))) := by
  constructor
  · intro pattern interval weekdays mode today
    cases pattern <;> cases interval <;> rfl
  · intro due today ws mode
    rw [calc_daily, mode_if_eq]
    set b := if mode = RegenerateMode.fixed_schedule then due else today with hb
    have h0 : (0 : Int) ≤ (toDays b : Int) + 0 := by omega
    simp only [ofDayNumber]
    rw [if_pos h0]
    have : ((toDays b : Int) + 0).toNat = toDays b := by omega
    rw [this]

/-- Claim C6, counterexample: the claim asserts the result is strictly after
the anchor `D` for both regenerate modes; but in `on_completion` mode the
base is the completion-day clock, so completing a daily task one day early
(anchor 0000-01-02, clock 0000-01-01, interval 1) returns the anchor itself,
which is not strictly after it. -/
theorem C6_counterexample :
    calculateNextDueDate (some ⟨0, 0, 2⟩) (some RecurrencePattern.daily) (some 1)
        (some []) (some RegenerateMode.on_completion) ⟨0, 0, 1⟩
      = some ⟨0, 0, 2⟩ ∧
    ¬ toDays (⟨0, 0, 2⟩ : CivilDate) < toDays (⟨0, 0, 2⟩ : CivilDate) ∧
    (⟨0, 0, 2⟩ : CivilDate).Valid ∧ (1 : Int) ≥ 1 := by
  refine ⟨by decide, by omega, by decide, by omega⟩

/-- Claim C6, amended: for every non-`none` pattern, valid anchor `D`, valid
clock date, interval ≥ 1, weekday list and regenerate mode, the calculator
returns a date that is strictly after the **base date** — `D` itself in
`fixed_schedule` mode (the claim as stated), today's date in `on_completion`
mode. -/
theorem C6_amended (D today : CivilDate) (p : RecurrencePattern) (i : Int)
    (ws : List Nat) (mode : RegenerateMode)
    (hp : p ≠ RecurrencePattern.none) (hi : 1 ≤ i) (hD : D.Valid) (ht : today.Valid) :
    ∃ r, calculateNextDueDate (some D) (some p) (some i) (some ws) (some mode) today
        = some r ∧
      toDays (if mode = RegenerateMode.fixed_schedule then D else today) < toDays r := by
  set base := if mode = RegenerateMode.fixed_schedule then D else today with hbase
  have hbaseValid : base.Valid := by
    rw [hbase]
    split
    · exact hD
    · exact ht
  cases p with
  | none => exact absurd rfl hp
  | daily =>
    rw [calc_daily, mode_if_eq, ← hbase]
    have h0 : (0 : Int) ≤ (toDays base : Int) + i := by omega
    simp only [ofDayNumber]
    rw [if_pos h0]
    refine ⟨_, rfl, ?_⟩
    rw [toDays_daysToCivil]
    omega
  | custom =>
    rw [calc_custom, mode_if_eq, ← hbase]
    have h0 : (0 : Int) ≤ (toDays base : Int) + i := by omega
    simp only [ofDayNumber]
    rw [if_pos h0]
    refine ⟨_, rfl, ?_⟩
    rw [toDays_daysToCivil]
    omega
  | weekly =>
    rw [calc_weekly, mode_if_eq, ← hbase]
    by_cases hlen : 0 < ws.length
    · rw [if_pos hlen]
      have hfw := findNextWeekday_gt base ws i hi
      have h0 : (0 : Int) ≤ findNextWeekday base ws i := by omega
      simp only [ofDayNumber]
      rw [if_pos h0]
      refine ⟨_, rfl, ?_⟩
      rw [toDays_daysToCivil]
      omega
    · rw [if_neg hlen]
      have h0 : (0 : Int) ≤ (toDays base : Int) + 7 * i := by omega
      simp only [ofDayNumber]
      rw [if_pos h0]
      refine ⟨_, rfl, ?_⟩
      rw [toDays_daysToCivil]
      omega
  | monthly =>
    rw [calc_monthly, mode_if_eq, ← hbase]
    dsimp only
    have h0 : (0 : Int) ≤ 12 * (base.y : Int) + (base.m : Int) + i := by omega
    rw [if_pos h0]
    have hd1 : 1 ≤ base.d := hbaseValid.2.1
    have hmono : monthsStart (12 * base.y + base.m)
        < monthsStart (12 * (base.y : Int) + (base.m : Int) + i).toNat := by
      apply monthsStart_lt
      omega
    have h0v : (0 : Int) ≤ (monthsStart (12 * (base.y : Int) + (base.m : Int) + i).toNat : Int)
        + ((base.d : Int) - 1) := by omega
    simp only [ofDayNumber]
    rw [if_pos h0v]
    refine ⟨_, rfl, ?_⟩
    rw [toDays_daysToCivil]
    unfold toDays
    omega
  | yearly =>
    rw [calc_yearly, mode_if_eq, ← hbase]
    dsimp only
    have h0 : (0 : Int) ≤ 12 * ((base.y : Int) + i) + (base.m : Int) := by omega
    rw [if_pos h0]
    have hd1 : 1 ≤ base.d := hbaseValid.2.1
    have hmono : monthsStart (12 * base.y + base.m)
        < monthsStart (12 * ((base.y : Int) + i) + (base.m : Int)).toNat := by
      apply monthsStart_lt
      omega
    have h0v : (0 : Int) ≤ (monthsStart (12 * ((base.y : Int) + i) + (base.m : Int)).toNat : Int)
        + ((base.d : Int) - 1) := by omega
    simp only [ofDayNumber]
    rw [if_pos h0v]
    refine ⟨_, rfl, ?_⟩
    rw [toDays_daysToCivil]
    unfold toDays
    omega

/-- Witness for `C6_amended` at a concrete input: daily, interval 1,
anchored and clocked at 0000-01-01 in `fixed_schedule` mode. -/
theorem C6_amended_witness :
    ∃ r, calculateNextDueDate (some ⟨0, 0, 1⟩) (some RecurrencePattern.daily) (some 1)
        (some []) (some RegenerateMode.fixed_schedule) ⟨0, 0, 1⟩
      = some r ∧
      toDays (if RegenerateMode.fixed_schedule = RegenerateMode.fixed_schedule
        then (⟨0, 0, 1⟩ : CivilDate) else ⟨0, 0, 1⟩) < toDays r :=
  C6_amended ⟨0, 0, 1⟩ ⟨0, 0, 1⟩ RecurrencePattern.daily 1 [] RegenerateMode.fixed_schedule
    (by decide) (by omega) (by decide) (by decide)


/-- Claim C7: for every base date, non-empty ascending weekday list and week
cadence ≥ 1, `findNextWeekday` (a) with cadence 1 and some listed weekday
strictly later in the base week returns the nearest such day, (b) otherwise
advances by `((7 − currentWeekday + firstWeekday) mod 7, or 7 if 0)` plus
`(weeksInterval − 1)·7` days, and (c) in all cases lands strictly after the
base date. -/
theorem C7_weekday_resolver (base : CivilDate) (ws : List Nat) (w : Int)
    (hne : ws ≠ []) (hsort : List.Sorted (· ≤ ·) ws) (hw : 1 ≤ w) :
    ((w = 1 ∧ ∃ u ∈ ws, weekdayOf (toDays base) < u) →
      ∃ wd ∈ ws, weekdayOf (toDays base) < wd ∧
        (∀ u ∈ ws, weekdayOf (toDays base) < u → wd ≤ u) ∧
        findNextWeekday base ws w
          = (toDays base : Int) + ((wd : Int) - (weekdayOf (toDays base) : Int))) ∧
    ((¬ (w = 1 ∧ ∃ u ∈ ws, weekdayOf (toDays base) < u)) →
      ∃ f, ws.head? = some f ∧
        findNextWeekday base ws w
          = (toDays base : Int)
            + ((if (7 - weekdayOf (toDays base) + f) % 7 = 0 then 7
                else (7 - weekdayOf (toDays base) + f) % 7 : Nat) : Int)
            + (w - 1) * 7) ∧
    (toDays base : Int) < findNextWeekday base ws w := by
  have hss : List.insertionSort (· ≤ ·) ws = ws := hsort.insertionSort_eq
  refine ⟨?_, ?_, findNextWeekday_gt base ws w hw⟩
  · rintro ⟨hw1, u, hu, hcu⟩
    have hfind : ∃ a, ws.find? (fun x => decide (weekdayOf (toDays base) < x)) = some a := by
      cases hfd : ws.find? (fun x => decide (weekdayOf (toDays base) < x)) with
      | some a => exact ⟨a, rfl⟩
      | none =>
        have := List.find?_eq_none.mp hfd u hu
        simp only [decide_eq_true_eq] at this
        exact absurd hcu this
    obtain ⟨a, ha⟩ := hfind
    obtain ⟨hmem, hca, hleast⟩ := find?_sorted_least hsort ha
    refine ⟨a, hmem, hca, hleast, ?_⟩
    unfold findNextWeekday
    rw [hss]
    dsimp only
    rw [ha]
    rw [if_pos ⟨by simp, hw1⟩]
    simp only [Option.getD_some]
  · intro hnot
    obtain ⟨f, hf⟩ : ∃ f, ws.head? = some f := by
      cases ws with
      | nil => exact absurd rfl hne
      | cons a l => exact ⟨a, rfl⟩
    refine ⟨f, hf, ?_⟩
    unfold findNextWeekday
    rw [hss]
    dsimp only
    have hcond : ¬ (ws.find? (fun wd => decide (weekdayOf (toDays base) < wd)) ≠ none ∧ w = 1) := by
      rintro ⟨hne', hw1⟩
      apply hnot
      obtain ⟨a, ha⟩ := Option.ne_none_iff_exists'.mp hne'
      obtain ⟨hmem, hca, _⟩ := find?_sorted_least hsort ha
      exact ⟨hw1, a, hmem, hca⟩
    rw [if_neg hcond]
    have hhead : ws.headD 0 = f := by
      cases ws with
      | nil => exact Option.noConfusion hf
      | cons a l =>
        cases hf
        rfl
    rw [hhead]

/-- Witness for `C7_weekday_resolver`: base 0000-01-05 is a Wednesday,
weekdays Mon/Wed/Fri, cadence 1. -/
theorem C7_weekday_resolver_witness :
    (((1 : Int) = 1 ∧ ∃ u ∈ [1, 3, 5], weekdayOf (toDays ⟨0, 0, 5⟩) < u) →
      ∃ wd ∈ [1, 3, 5], weekdayOf (toDays ⟨0, 0, 5⟩) < wd ∧
        (∀ u ∈ [1, 3, 5], weekdayOf (toDays ⟨0, 0, 5⟩) < u → wd ≤ u) ∧
        findNextWeekday ⟨0, 0, 5⟩ [1, 3, 5] 1
          = (toDays ⟨0, 0, 5⟩ : Int) + ((wd : Int) - (weekdayOf (toDays ⟨0, 0, 5⟩) : Int))) ∧
    ((¬ ((1 : Int) = 1 ∧ ∃ u ∈ [1, 3, 5], weekdayOf (toDays ⟨0, 0, 5⟩) < u)) →
      ∃ f, ([1, 3, 5] : List Nat).head? = some f ∧
        findNextWeekday ⟨0, 0, 5⟩ [1, 3, 5] 1
          = (toDays ⟨0, 0, 5⟩ : Int)
            + ((if (7 - weekdayOf (toDays ⟨0, 0, 5⟩) + f) % 7 = 0 then 7
                else (7 - weekdayOf (toDays ⟨0, 0, 5⟩) + f) % 7 : Nat) : Int)
            + ((1 : Int) - 1) * 7) ∧
    (toDays ⟨0, 0, 5⟩ : Int) < findNextWeekday ⟨0, 0, 5⟩ [1, 3, 5] 1 :=
  C7_weekday_resolver ⟨0, 0, 5⟩ [1, 3, 5] 1 (by decide) (by decide) (by omega)


/-! ## Claims about the completion workflow -/

/-- A plain task row used as the base of concrete test stores. -/
def sampleTaskRow : TaskRow where
  id := 1
  list_id := none
  title := "t"
  description := ""
  notes := ""
  due_date := none
  due_time := none
  priority := Priority.none
  completed := false
  completed_at := none
  position := 0
  created_at := 0
  updated_at := 0
  recurrence_pattern := RecurrencePattern.none
  recurrence_interval := 1
  recurrence_weekdays := []
  recurrence_end_date := none
  regenerate_mode := RegenerateMode.on_completion

/-- A plain reminder row used as the base of concrete test stores. -/
def sampleReminderRow : ReminderRow where
  id := 5
  task_id := 1
  reminder_time := 1000
  triggered := false
  snoozed_until := none
  created_at := 0
  updated_at := 0

/-- Claim C1, evaluated at the failing input: one stored task, daily /
interval 1 / fixed-schedule, due 0000-01-01, tagged with tag 42.  The
calculator applied to the row's recurrence configuration would give
0000-01-02 (non-null, no end date, so in bound), and `daily ≠ none`; yet
`completeRecurringTask` inserts a clone whose `recurrence_pattern` column is
the table default `'none'` and whose `due_date` is NULL: `taskService.create`
never writes the recurrence columns and `rowToTask` never reads them, so the
calculator actually runs on an `undefined` pattern.  The tag copy and the
end-of-list position do work as claimed. -/
theorem C1_recurrence_clone_dropped :
    (calculateNextDueDate (some ⟨0, 0, 1⟩) (some RecurrencePattern.daily) (some 1)
        (some []) (some RegenerateMode.fixed_schedule) ⟨0, 0, 5⟩ = some ⟨0, 0, 2⟩) ∧
    RecurrencePattern.daily ≠ RecurrencePattern.none ∧
    (let st : Store :=
      { tasks := [{ sampleTaskRow with
          due_date := some ⟨0, 0, 1⟩
          recurrence_pattern := RecurrencePattern.daily
          regenerate_mode := RegenerateMode.fixed_schedule }]
        reminders := []
        taskTags := [(1, 42)] }
     let res := completeRecurringTask st 2 100 ⟨0, 0, 5⟩ 1
     res.1.tasks.length = 2 ∧
     (res.1.tasks.find? (fun r => r.id == 2)).map
         (fun r => (r.recurrence_pattern, r.due_date, r.position))
       = some (RecurrencePattern.none, none, 1) ∧
     (res.2.map (fun p => p.2.isSome)) = some true ∧
     res.1.taskTags = [(1, 42), (2, 42)]) := by
  refine ⟨by decide, by decide, ?_⟩
  decide

/-- Claim C2, counterexample: a stored task with `recurrence_pattern =
'daily'` (≠ none) and **no due date** — the calculator returns null on its
fields — for which the claim demands `nextTask = null` and no insertion.  The
code nevertheless inserts a clone row and returns it as `nextTask`. -/
theorem C2_counterexample :
    let st : Store :=
      { tasks := [{ sampleTaskRow with
          recurrence_pattern := RecurrencePattern.daily
          due_date := none
          recurrence_end_date := some ⟨0, 0, 9⟩ }]
        reminders := []
        taskTags := [] }
    let res := completeRecurringTask st 2 100 ⟨0, 0, 5⟩ 1
    (res.2.map (fun p => p.2.isSome)) = some true ∧
    res.1.tasks.length = 2 := by
  decide

/-- Claim C2, amended: the end-date bound of `createNextRecurringTask` does
terminate the series (null result, no insertion) when the in-memory task has
a non-null `recurrenceEndDate` **and** the computed next date is non-null and
exceeds it; but when the calculator returns null the function does *not*
terminate: it inserts a clone row with a NULL due date (and default
recurrence columns) and returns it. -/
theorem C2_amended (st : Store) (freshId : Nat) (now : Int) (today : CivilDate) (t : Task)
    (hp : t.recurrencePattern ≠ some RecurrencePattern.none) :
    (∀ endDate nextDate,
        t.recurrenceEndDate = some endDate →
        calculateNextDueDate t.dueDate t.recurrencePattern t.recurrenceInterval
            t.recurrenceWeekdays t.regenerateMode today = some nextDate →
        toDays endDate < toDays nextDate →
        createNextRecurringTask st freshId now today t = (st, none)) ∧
    (calculateNextDueDate t.dueDate t.recurrencePattern t.recurrenceInterval
        t.recurrenceWeekdays t.regenerateMode today = none →
      ∃ row, (createNextRecurringTask st freshId now today t).1.tasks = st.tasks ++ [row] ∧
        (createNextRecurringTask st freshId now today t).2 = some (rowToTask row) ∧
        row.due_date = none ∧ row.recurrence_pattern = RecurrencePattern.none ∧
        row.id = freshId) := by
  constructor
  · intro endDate nextDate hend hcalc hlt
    unfold createNextRecurringTask
    rw [if_neg hp]
    dsimp only
    rw [hcalc, hend]
    dsimp only
    rw [if_pos (decide_eq_true hlt)]
  · intro hcalc
    unfold createNextRecurringTask
    rw [if_neg hp]
    dsimp only
    rw [hcalc]
    cases hend : t.recurrenceEndDate with
    | none =>
      dsimp only [taskCreate]
      exact ⟨_, rfl, rfl, rfl, rfl, rfl⟩
    | some e =>
      dsimp only [taskCreate]
      exact ⟨_, rfl, rfl, rfl, rfl, rfl⟩


/-- A fully-populated in-memory task (as a direct caller or test would build
one), daily, anchored 0000-01-01 with end date 0000-01-01. -/
def c2TaskPastEnd : Task :=
  { rowToTask sampleTaskRow with
    recurrencePattern := some RecurrencePattern.daily
    recurrenceInterval := some 1
    recurrenceWeekdays := some []
    regenerateMode := some RegenerateMode.fixed_schedule
    dueDate := some ⟨0, 0, 1⟩
    recurrenceEndDate := some ⟨0, 0, 1⟩ }

/-- A daily in-memory task with no anchor date (calculator yields null). -/
def c2TaskNoAnchor : Task :=
  { rowToTask sampleTaskRow with
    recurrencePattern := some RecurrencePattern.daily
    recurrenceInterval := some 1
    recurrenceWeekdays := some []
    regenerateMode := some RegenerateMode.fixed_schedule
    dueDate := none }

/-- Witness for `C2_amended`: both conjuncts at concrete inputs — a task past
its end date terminates without insertion; a task whose next date is null
still gets a clone row with a NULL due date. -/
theorem C2_amended_witness :
    (createNextRecurringTask ⟨[], [], []⟩ 7 0 ⟨0, 0, 9⟩ c2TaskPastEnd = (⟨[], [], []⟩, none)) ∧
    (∃ row,
      (createNextRecurringTask ⟨[], [], []⟩ 7 0 ⟨0, 0, 9⟩ c2TaskNoAnchor).1.tasks
        = (⟨[], [], []⟩ : Store).tasks ++ [row] ∧
      (createNextRecurringTask ⟨[], [], []⟩ 7 0 ⟨0, 0, 9⟩ c2TaskNoAnchor).2
        = some (rowToTask row) ∧
      row.due_date = none ∧ row.recurrence_pattern = RecurrencePattern.none ∧
      row.id = 7) := by
  constructor
  · exact (C2_amended ⟨[], [], []⟩ 7 0 ⟨0, 0, 9⟩ c2TaskPastEnd (by decide)).1
      ⟨0, 0, 1⟩ ⟨0, 0, 2⟩ rfl (by decide) (by decide)
  · exact (C2_amended ⟨[], [], []⟩ 7 0 ⟨0, 0, 9⟩ c2TaskNoAnchor (by decide)).2 (by decide)


/-- `taskService.update` with `{ completed: true }` always takes the rewrite
branch. -/
theorem taskUpdate_complete (st : Store) (now : Int) (id : Nat) :
    taskUpdate st now id { completed := some true }
      = ({ st with tasks := st.tasks.map (fun r =>
            if r.id == id then applyTaskUpdate now { completed := some true } r else r) },
         taskGetById { st with tasks := st.tasks.map (fun r =>
            if r.id == id then applyTaskUpdate now { completed := some true } r else r) } id) := by
  unfold taskUpdate
  rw [if_neg (by simp)]

/-- `applyTaskUpdate` never changes the row id. -/
theorem applyTaskUpdate_id (now : Int) (dto : UpdateTaskDTO) (row : TaskRow) :
    (applyTaskUpdate now dto row).id = row.id := rfl

/-- `rowToTask` leaves the pattern field undefined, whatever the row. -/
theorem rowToTask_recurrencePattern (row : TaskRow) :
    (rowToTask row).recurrencePattern = none := rfl

/-- `rowToTask` leaves the end-date field undefined, whatever the row. -/
theorem rowToTask_recurrenceEndDate (row : TaskRow) :
    (rowToTask row).recurrenceEndDate = none := rfl

/-- One `completeRecurringTask` call on a present task id: the matching rows
are rewritten by the mark-complete update, and — because `rowToTask` leaves
`recurrencePattern` undefined, so the `!== 'none'` branch is always taken and
the calculator returns null without stopping the series — exactly one clone
row with the fresh id is appended; the call returns the updated task and the
clone. -/
theorem completeRecurringTask_found (st : Store) (id : Nat) (t : TaskRow) (freshId : Nat)
    (now : Int) (today : CivilDate)
    (hfind : st.tasks.find? (fun r => r.id == id) = some t) :
    ∃ row,
      (completeRecurringTask st freshId now today id).1.tasks
        = st.tasks.map (fun r => if r.id == id then
            applyTaskUpdate now { completed := some true } r else r) ++ [row] ∧
      row.id = freshId ∧ row.completed = false ∧
      (completeRecurringTask st freshId now today id).2
        = some (rowToTask (applyTaskUpdate now { completed := some true } t),
            some (rowToTask row)) := by
  have hfind' : (st.tasks.map (fun r => if r.id == id then
      applyTaskUpdate now { completed := some true } r else r)).find? (fun r => r.id == id)
      = some (applyTaskUpdate now { completed := some true } t) := by
    rw [find?_map_ite (fun r => r.id == id) (applyTaskUpdate now { completed := some true })
      (fun a h => h) st.tasks, hfind, Option.map_some']
  unfold completeRecurringTask
  unfold taskGetById
  rw [hfind, Option.map_some']
  dsimp only
  rw [taskUpdate_complete]
  dsimp only
  unfold taskGetById
  rw [hfind', Option.map_some']
  dsimp only
  rw [if_pos (by simp [rowToTask])]
  unfold createNextRecurringTask
  rw [if_neg (by simp [rowToTask])]
  dsimp only
  simp only [rowToTask_recurrencePattern, rowToTask_recurrenceEndDate, calc_undef_pattern]
  dsimp only [taskCreate]
  exact ⟨_, rfl, rfl, rfl, rfl⟩


/-- Marking complete sets the flag. -/
theorem applyComplete_completed (now : Int) (r : TaskRow) :
    (applyTaskUpdate now { completed := some true } r).completed = true := rfl

/-- Marking complete overwrites `completed_at` with the current clock. -/
theorem applyComplete_completed_at (now : Int) (r : TaskRow) :
    (applyTaskUpdate now { completed := some true } r).completed_at = some now := rfl

/-- Claim C10: `completeRecurringTask` never checks that the task is still
pending.  For any stored task — already completed or not — each call re-runs
the whole workflow: the returned `completedTask` carries `completedAt = now`
of that call, the recurrence branch is taken and a fresh row is inserted, so
two calls insert two new rows, and the stored row ends with `completed_at`
overwritten by the second call's clock. -/
theorem C10_repeat_completion (st : Store) (id : Nat) (t : TaskRow)
    (freshId1 freshId2 : Nat) (now1 now2 : Int) (today1 today2 : CivilDate)
    (hfind : st.tasks.find? (fun r => r.id == id) = some t)
    (h2 : freshId2 ≠ id) :
    ((completeRecurringTask st freshId1 now1 today1 id).2.map
        (fun p => (p.1.completedAt, p.2.isSome)) = some (some now1, true)) ∧
    ((completeRecurringTask (completeRecurringTask st freshId1 now1 today1 id).1
          freshId2 now2 today2 id).2.map
        (fun p => (p.1.completedAt, p.2.isSome)) = some (some now2, true)) ∧
    (completeRecurringTask (completeRecurringTask st freshId1 now1 today1 id).1
        freshId2 now2 today2 id).1.tasks.length = st.tasks.length + 2 ∧
    (∀ row ∈ (completeRecurringTask (completeRecurringTask st freshId1 now1 today1 id).1
        freshId2 now2 today2 id).1.tasks,
      row.id = id → row.completed = true ∧ row.completed_at = some now2) := by
  obtain ⟨row1, htasks1, hid1, hc1, hres1⟩ :=
    completeRecurringTask_found st id t freshId1 now1 today1 hfind
  have hfind1 : ((completeRecurringTask st freshId1 now1 today1 id).1.tasks).find?
      (fun r => r.id == id) = some (applyTaskUpdate now1 { completed := some true } t) := by
    rw [htasks1]
    apply find?_append_of_some
    rw [find?_map_ite (fun r => r.id == id) (applyTaskUpdate now1 { completed := some true })
      (fun a h => h) st.tasks, hfind, Option.map_some']
  obtain ⟨row2, htasks2, hid2, hc2, hres2⟩ :=
    completeRecurringTask_found (completeRecurringTask st freshId1 now1 today1 id).1 id
      (applyTaskUpdate now1 { completed := some true } t) freshId2 now2 today2 hfind1
  refine ⟨?_, ?_, ?_, ?_⟩
  · rw [hres1]
    simp only [Option.map_some', Option.isSome_some]
    rfl
  · rw [hres2]
    simp only [Option.map_some', Option.isSome_some]
    rfl
  · rw [htasks2, htasks1]
    simp [List.length_append, List.length_map]
  · intro row hmem hrowid
    rw [htasks2] at hmem
    rcases List.mem_append.mp hmem with hmem' | hmem'
    · obtain ⟨r', _, hr'⟩ := List.mem_map.mp hmem'
      by_cases hcase : (r'.id == id) = true
      · rw [if_pos hcase] at hr'
        rw [← hr']
        exact ⟨applyComplete_completed _ _, applyComplete_completed_at _ _⟩
      · rw [if_neg hcase] at hr'
        rw [← hr'] at hrowid
        exact absurd (by simp [hrowid]) hcase
    · have : row = row2 := by simpa using hmem'
      rw [this] at hrowid
      rw [hid2] at hrowid
      exact absurd hrowid h2

/-- The store of the C10 witness: one already completed task. -/
def c10Row : TaskRow :=
  { sampleTaskRow with completed := true, completed_at := some 50 }

/-- Witness store for C10. -/
def c10Store : Store :=
  { tasks := [c10Row], reminders := [], taskTags := [] }

/-- Witness for `C10_repeat_completion`: a store holding one **already
completed** task (id 1, `completed_at = 50`); fresh ids 2 and 3; clocks 100
then 200. -/
theorem C10_repeat_completion_witness :
    ((completeRecurringTask c10Store 2 100 ⟨0, 0, 1⟩ 1).2.map
        (fun p => (p.1.completedAt, p.2.isSome)) = some (some 100, true)) ∧
    ((completeRecurringTask (completeRecurringTask c10Store 2 100 ⟨0, 0, 1⟩ 1).1
          3 200 ⟨0, 0, 1⟩ 1).2.map
        (fun p => (p.1.completedAt, p.2.isSome)) = some (some 200, true)) ∧
    (completeRecurringTask (completeRecurringTask c10Store 2 100 ⟨0, 0, 1⟩ 1).1
        3 200 ⟨0, 0, 1⟩ 1).1.tasks.length = c10Store.tasks.length + 2 ∧
    (∀ row ∈ (completeRecurringTask (completeRecurringTask c10Store 2 100 ⟨0, 0, 1⟩ 1).1
        3 200 ⟨0, 0, 1⟩ 1).1.tasks,
      row.id = 1 → row.completed = true ∧ row.completed_at = some 200) :=
  C10_repeat_completion c10Store 1 c10Row 2 3 100 200 ⟨0, 0, 1⟩ ⟨0, 0, 1⟩
    (by decide) (by decide)


/-- `applyReminderUpdate` never changes the row id. -/
theorem applyReminderUpdate_id (now : Int) (dto : UpdateReminderDTO) (row : ReminderRow) :
    (applyReminderUpdate now dto row).id = row.id := rfl

/-- Claim C9: every entry point treats an unknown id as a non-throwing no-op.
`completeRecurringTask` returns null with the store untouched;
`snoozeReminder` returns null with the store untouched (the `UPDATE` matches
no row); `deleteReminder` returns false (`changes = 0`) with the store
untouched. -/
theorem C9_missing_id_noop (st : Store) (sch : SchedState) (freshId : Nat) (now : Int)
    (today : CivilDate) (id : Nat) (m : Int) (supported : Bool) :
    (st.tasks.find? (fun r => r.id == id) = none →
      completeRecurringTask st freshId now today id = (st, none)) ∧
    (sch.store.reminders.find? (fun r => r.id == id) = none →
      (snoozeReminder supported now sch id m).2 = none ∧
      (snoozeReminder supported now sch id m).1.store = sch.store ∧
      (deleteReminder sch id).2 = false ∧
      (deleteReminder sch id).1.store = sch.store) := by
  constructor
  · intro hnone
    unfold completeRecurringTask taskGetById
    rw [hnone]
    rfl
  · intro hnone
    have hmap : sch.store.reminders.map (fun r =>
        if r.id == id then applyReminderUpdate now
          { snoozedUntil := some (some (now + m * 60 * 1000)), triggered := some false } r
        else r) = sch.store.reminders :=
      map_ite_of_find?_none _ _ _ hnone
    have hupd : reminderSnooze sch.store now id m = (sch.store, none) := by
      unfold reminderSnooze reminderUpdate
      rw [if_neg (by simp)]
      dsimp only
      rw [hmap]
      unfold reminderGetById
      rw [hnone]
      rfl
    refine ⟨?_, ?_, ?_, ?_⟩
    · unfold snoozeReminder
      rw [hupd]
    · unfold snoozeReminder
      rw [hupd]
    · unfold deleteReminder cancelReminder reminderDelete
      dsimp only
      rw [any_false_of_find?_none _ _ hnone]
    · unfold deleteReminder cancelReminder reminderDelete
      dsimp only
      rw [filter_not_of_find?_none _ _ hnone]
  
/-- Witness for `C9_missing_id_noop`: the empty store, id 9. -/
theorem C9_missing_id_noop_witness :
    (completeRecurringTask ⟨[], [], []⟩ 2 0 ⟨0, 0, 1⟩ 9 = (⟨[], [], []⟩, none)) ∧
    ((snoozeReminder true 0 ⟨⟨[], [], []⟩, [], []⟩ 9 10).2 = none ∧
     (snoozeReminder true 0 ⟨⟨[], [], []⟩, [], []⟩ 9 10).1.store = (⟨[], [], []⟩ : Store) ∧
     (deleteReminder ⟨⟨[], [], []⟩, [], []⟩ 9).2 = false ∧
     (deleteReminder ⟨⟨[], [], []⟩, [], []⟩ 9).1.store = (⟨[], [], []⟩ : Store)) :=
  ⟨(C9_missing_id_noop ⟨[], [], []⟩ ⟨⟨[], [], []⟩, [], []⟩ 2 0 ⟨0, 0, 1⟩ 9 10 true).1 rfl,
   (C9_missing_id_noop ⟨[], [], []⟩ ⟨⟨[], [], []⟩, [], []⟩ 2 0 ⟨0, 0, 1⟩ 9 10 true).2 rfl⟩


/-! ## Claims about the reminder scheduler -/

/-- Claim C3, counterexample: snoozing the stored reminder (id 5,
`reminderTime = 1000`, already triggered) by 10 minutes at clock 5000 must —
per the claim — set `reminderTime` to `5000 + 10·60·1000 = 605000`.  The
code leaves `reminderTime` at 1000: `reminderService.snooze` only writes
`snoozed_until` and `triggered`. -/
theorem C3_counterexample :
    let sch : SchedState :=
      ⟨⟨[], [{ sampleReminderRow with triggered := true }], []⟩, [], []⟩
    ((snoozeReminder true 5000 sch 5 10).2.map (fun r => r.reminderTime) = some 1000) ∧
    (1000 : Int) ≠ 5000 + 10 * 60 * 1000 := by
  constructor
  · decide
  · decide

/-- Claim C3, amended: for a stored reminder, `snoozeReminder(id, m)` sets
`snoozedUntil = now + m·60·1000` and `triggered = false`, persists both (plus
`updated_at`), returns the updated reminder, and re-schedules it — but
`reminderTime` is left **unchanged** (so the re-scheduled timer still uses
the old time, not `snoozedUntil`).  For an unknown id it returns null. -/
theorem C3_amended (supported : Bool) (sch : SchedState) (now : Int) (id : Nat) (m : Int) :
    (∀ row, sch.store.reminders.find? (fun r => r.id == id) = some row →
      (snoozeReminder supported now sch id m).2
        = some { rowToReminder row with
            triggered := false
            snoozedUntil := some (now + m * 60 * 1000)
            updatedAt := now } ∧
      (reminderSnooze sch.store now id m).1.reminders.find? (fun r => r.id == id)
        = some { row with
            triggered := false
            snoozed_until := some (now + m * 60 * 1000)
            updated_at := now } ∧
      (snoozeReminder supported now sch id m).1
        = scheduleReminder supported now
            { sch with store := (reminderSnooze sch.store now id m).1 }
            { rowToReminder row with
              triggered := false
              snoozedUntil := some (now + m * 60 * 1000)
              updatedAt := now }) ∧
    (sch.store.reminders.find? (fun r => r.id == id) = none →
      (snoozeReminder supported now sch id m).2 = none) := by
  constructor
  · intro row hrow
    have hfind' : (sch.store.reminders.map (fun r =>
        if r.id == id then applyReminderUpdate now
          { snoozedUntil := some (some (now + m * 60 * 1000)), triggered := some false } r
        else r)).find? (fun r => r.id == id)
        = some (applyReminderUpdate now
            { snoozedUntil := some (some (now + m * 60 * 1000)), triggered := some false } row) := by
      rw [find?_map_ite (fun r => r.id == id)
        (applyReminderUpdate now
          { snoozedUntil := some (some (now + m * 60 * 1000)), triggered := some false })
        (fun a h => h) sch.store.reminders, hrow, Option.map_some']
    have hsvc : reminderSnooze sch.store now id m
        = ({ sch.store with reminders := sch.store.reminders.map (fun r =>
              if r.id == id then applyReminderUpdate now
                { snoozedUntil := some (some (now + m * 60 * 1000)), triggered := some false } r
              else r) },
           some { rowToReminder row with
              triggered := false
              snoozedUntil := some (now + m * 60 * 1000)
              updatedAt := now }) := by
      unfold reminderSnooze reminderUpdate
      rw [if_neg (by simp)]
      dsimp only
      unfold reminderGetById
      rw [hfind', Option.map_some']
      rfl
    refine ⟨?_, ?_, ?_⟩
    · unfold snoozeReminder
      rw [hsvc]
    · rw [hsvc]
      dsimp only
      rw [hfind']
      rfl
    · unfold snoozeReminder
      rw [hsvc]
  · intro hnone
    have hmap : sch.store.reminders.map (fun r =>
        if r.id == id then applyReminderUpdate now
          { snoozedUntil := some (some (now + m * 60 * 1000)), triggered := some false } r
        else r) = sch.store.reminders :=
      map_ite_of_find?_none _ _ _ hnone
    unfold snoozeReminder reminderSnooze reminderUpdate
    rw [if_neg (by simp)]
    dsimp only
    rw [hmap]
    unfold reminderGetById
    rw [hnone]
    rfl

/-- Witness for `C3_amended`: the triggered reminder 5 snoozed 10 minutes at
clock 5000 (present case), and the unknown id 9 (absent case). -/
theorem C3_amended_witness :
    (snoozeReminder true 5000
        ⟨⟨[], [{ sampleReminderRow with triggered := true }], []⟩, [], []⟩ 5 10).2
      = some { (rowToReminder { sampleReminderRow with triggered := true }) with
          triggered := false
          snoozedUntil := some (5000 + 10 * 60 * 1000)
          updatedAt := 5000 } ∧
    (reminderSnooze ⟨[], [{ sampleReminderRow with triggered := true }], []⟩ 5000 5 10).1.reminders.find?
        (fun r => r.id == 5)
      = some { ({ sampleReminderRow with triggered := true } : ReminderRow) with
          triggered := false
          snoozed_until := some (5000 + 10 * 60 * 1000)
          updated_at := 5000 } ∧
    ((snoozeReminder true 5000
        ⟨⟨[], [{ sampleReminderRow with triggered := true }], []⟩, [], []⟩ 9 10).2 = none) :=
  ⟨((C3_amended true ⟨⟨[], [{ sampleReminderRow with triggered := true }], []⟩, [], []⟩
      5000 5 10).1 { sampleReminderRow with triggered := true } (by decide)).1,
   ((C3_amended true ⟨⟨[], [{ sampleReminderRow with triggered := true }], []⟩, [], []⟩
      5000 5 10).1 { sampleReminderRow with triggered := true } (by decide)).2.1,
   (C3_amended true ⟨⟨[], [{ sampleReminderRow with triggered := true }], []⟩, [], []⟩
      5000 9 10).2 (by decide)⟩


/-- Claim C4, counterexample: the stored reminder 5 already has
`triggered = true` (say the sweep just delivered it), its owning task 1 is
alive and pending; a timer fire — which invokes `triggerReminder` with the
`Reminder` snapshot captured at scheduling time — emits a notification
anyway: `triggerReminder` re-reads the task but never the reminder row. -/
theorem C4_counterexample :
    let sch : SchedState :=
      ⟨⟨[sampleTaskRow], [{ sampleReminderRow with triggered := true }], []⟩,
        [(5, 1000)], []⟩
    let snapshot : Reminder := rowToReminder sampleReminderRow
    ((sch.store.reminders.find? (fun r => r.id == 5)).map (fun r => r.triggered)
      = some true) ∧
    (triggerReminder true 2000 sch snapshot).notifs
      = [⟨5, 1, "t", false⟩] := by
  constructor
  · decide
  · decide

/-- Claim C4, amended: the deliverer re-reads only the **task** at delivery
time: if the owning task is missing or completed, no notification is emitted
(the reminder is just marked triggered).  The fallback sweep never selects a
reminder whose stored `triggered` is true (its `getDue` query filters them).
But the timer path does not re-read the reminder row, so a stored
`triggered = true` alone does not suppress delivery (see the
counterexample). -/
theorem C4_amended (supported : Bool) (now : Int) (sch : SchedState) (r : Reminder) :
    ((taskGetById sch.store r.taskId = none ∨
        (∃ t, taskGetById sch.store r.taskId = some t ∧ t.completed = true)) →
      (triggerReminder supported now sch r).notifs = sch.notifs) ∧
    (∀ rr ∈ reminderGetDue sch.store now, rr.triggered = false) := by
  constructor
  · intro h
    unfold triggerReminder
    rcases h with hnone | ⟨t, hsome, hcompl⟩
    · rw [hnone]
    · rw [hsome]
      dsimp only
      rw [if_pos hcompl]
  · intro rr hrr
    unfold reminderGetDue at hrr
    obtain ⟨row, hrowmem, hrow⟩ := List.mem_map.mp hrr
    have := List.of_mem_filter hrowmem
    simp only [Bool.and_eq_true, Bool.not_eq_true'] at this
    rw [← hrow]
    exact this.1.1

/-- Witness for `C4_amended`: over a store whose task 1 is completed, the
delivery of reminder 5 emits nothing, and the due query over a triggered
reminder row is empty of triggered entries. -/
theorem C4_amended_witness :
    (triggerReminder true 2000
        ⟨⟨[{ sampleTaskRow with completed := true }], [sampleReminderRow], []⟩, [], []⟩
        (rowToReminder sampleReminderRow)).notifs
      = (⟨⟨[{ sampleTaskRow with completed := true }], [sampleReminderRow], []⟩,
          [], []⟩ : SchedState).notifs ∧
    (∀ rr ∈ reminderGetDue
        ⟨[{ sampleTaskRow with completed := true }], [sampleReminderRow], []⟩ 2000,
      rr.triggered = false) :=
  ⟨(C4_amended true 2000
      ⟨⟨[{ sampleTaskRow with completed := true }], [sampleReminderRow], []⟩, [], []⟩
      (rowToReminder sampleReminderRow)).1
      (Or.inr ⟨rowToTask { sampleTaskRow with completed := true }, by decide, by decide⟩),
   (C4_amended true 2000
      ⟨⟨[{ sampleTaskRow with completed := true }], [sampleReminderRow], []⟩, [], []⟩
      (rowToReminder sampleReminderRow)).2⟩

/-- Claim C8: scheduling a reminder whose `reminderTime` is not in the future
delivers synchronously — the scheduling call itself runs `triggerReminder`
(after cancelling any pending job), the stored row's `triggered` flag is true
when the call returns, and no timer is left registered for the id. -/
theorem C8_past_due_sync (supported : Bool) (now : Int) (sch : SchedState)
    (r : Reminder) (row : ReminderRow)
    (hrow : sch.store.reminders.find? (fun x => x.id == r.id) = some row)
    (hpast : r.reminderTime ≤ now) :
    scheduleReminder supported now sch r
      = triggerReminder supported now
          { sch with jobs := sch.jobs.filter (fun j => !(j.1 == r.id)) } r ∧
    (∃ row', (scheduleReminder supported now sch r).store.reminders.find?
        (fun x => x.id == r.id) = some row' ∧ row'.triggered = true) ∧
    (∀ j ∈ (scheduleReminder supported now sch r).jobs, j.1 ≠ r.id) := by
  have hsched : scheduleReminder supported now sch r
      = triggerReminder supported now
          { sch with jobs := sch.jobs.filter (fun j => !(j.1 == r.id)) } r := by
    unfold scheduleReminder
    rw [if_pos hpast]
  have hmark : ∀ st : Store, st.reminders.find? (fun x => x.id == r.id) = some row →
      ∃ row', (reminderMarkTriggered st now r.id).1.reminders.find?
        (fun x => x.id == r.id) = some row' ∧ row'.triggered = true := by
    intro st hst
    unfold reminderMarkTriggered reminderUpdate
    rw [if_neg (by simp)]
    dsimp only
    rw [find?_map_ite (fun x => x.id == r.id)
      (applyReminderUpdate now { triggered := some true })
      (fun a h => h) st.reminders, hst, Option.map_some']
    exact ⟨_, rfl, rfl⟩
  refine ⟨hsched, ?_, ?_⟩
  · rw [hsched]
    unfold triggerReminder
    cases htask : taskGetById sch.store r.taskId with
    | none =>
      dsimp only
      exact hmark sch.store hrow
    | some task =>
      dsimp only
      by_cases hc : task.completed
      · rw [if_pos hc]
        exact hmark sch.store hrow
      · rw [if_neg hc]
        exact hmark sch.store hrow
  · rw [hsched]
    unfold triggerReminder
    cases htask : taskGetById sch.store r.taskId with
    | none =>
      dsimp only
      intro j hj
      have := List.of_mem_filter hj
      simpa using this
    | some task =>
      dsimp only
      by_cases hc : task.completed
      · rw [if_pos hc]
        intro j hj
        have := List.of_mem_filter hj
        simpa using this
      · rw [if_neg hc]
        intro j hj
        have := List.of_mem_filter (List.mem_of_mem_filter hj)
        simpa using this

/-- Witness for `C8_past_due_sync`: reminder 5 (time 1000) scheduled at
clock 2000 over a store holding its row and a pending task. -/
theorem C8_past_due_sync_witness :
    scheduleReminder true 2000
        ⟨⟨[sampleTaskRow], [sampleReminderRow], []⟩, [(5, 1000)], []⟩
        (rowToReminder sampleReminderRow)
      = triggerReminder true 2000
          { (⟨⟨[sampleTaskRow], [sampleReminderRow], []⟩, [(5, 1000)], []⟩ : SchedState) with
            jobs := ([(5, 1000)] : List (Nat × Int)).filter
              (fun j => !(j.1 == (rowToReminder sampleReminderRow).id)) }
          (rowToReminder sampleReminderRow) ∧
    (∃ row', (scheduleReminder true 2000
          ⟨⟨[sampleTaskRow], [sampleReminderRow], []⟩, [(5, 1000)], []⟩
          (rowToReminder sampleReminderRow)).store.reminders.find?
        (fun x => x.id == (rowToReminder sampleReminderRow).id) = some row' ∧
      row'.triggered = true) ∧
    (∀ j ∈ (scheduleReminder true 2000
        ⟨⟨[sampleTaskRow], [sampleReminderRow], []⟩, [(5, 1000)], []⟩
        (rowToReminder sampleReminderRow)).jobs,
      j.1 ≠ (rowToReminder sampleReminderRow).id) :=
  C8_past_due_sync true 2000
    ⟨⟨[sampleTaskRow], [sampleReminderRow], []⟩, [(5, 1000)], []⟩
    (rowToReminder sampleReminderRow) sampleReminderRow (by decide) (by decide)

end TickTick
